import Mathlib

/-!
Shallow embedding of the `orchestra` fan-out request aggregator.

The Go sources modelled here are the orchestration core (`Orchestra`,
`Conn`, `Response`, the two output formatters) and the HTTP boundary
(`digestRequest`, `handler`).  Machine integers (`time.Duration`,
`int64`) are modelled as `Int` with explicit wrap-around where the Go
code can overflow.  The network is an oracle: each fetch is given a
`FetchOutcome` describing what the wire returned.  A response body is a
consumed-once stream, modelled by storing only its unread remainder;
reading it drains it.  Writers cannot fail in the model, so the
error results of the Go output helpers are always nil and are dropped.
-/

/-- Wrap an unbounded integer to Go `int64` two's-complement semantics. -/
def int64wrap (n : Int) : Int :=
  let m := Int.emod n (2 ^ 64)
  if m ≥ 2 ^ 63 then m - 2 ^ 64 else m

/-- Decimal digit value, as in Go `strconv`. -/
def digitVal (c : Char) : Option Nat :=
  if 48 ≤ c.toNat ∧ c.toNat ≤ 57 then some (c.toNat - 48) else none

def parseDigitsAux : List Char → Nat → Option Nat
  | [], acc => some acc
  | c :: rest, acc =>
    match digitVal c with
    | some v => parseDigitsAux rest (acc * 10 + v)
    | none => none

/-- Digit-string value; `none` on an empty string or a non-digit. -/
def parseDigits : List Char → Option Nat
  | [] => none
  | c :: rest => parseDigitsAux (c :: rest) 0

/-- The optional leading sign of a Go integer literal. -/
def signSplit : List Char → Bool × List Char
  | [] => (false, [])
  | c :: rest =>
    if c = '-' then (true, rest)
    else if c = '+' then (false, rest)
    else (false, c :: rest)

/-- Go `strconv.ParseInt(s, 10, 64)`: the returned value and whether the
parse succeeded.  On a syntax error the value is 0; on a range error it
is the saturated `int64` bound (`math.MaxInt64` or `math.MinInt64`). -/
def goParseInt64 (s : String) : Int × Bool :=
  match parseDigits (signSplit s.data).2 with
  | none => (0, false)
  | some n =>
    let un : Nat := min n (2 ^ 64 - 1)
    if (signSplit s.data).1 then
      if un > 2 ^ 63 then (-(2 ^ 63 : Int), false)
      else (-(un : Int), true)
    else
      if un ≥ 2 ^ 63 then ((2 ^ 63 : Int) - 1, false)
      else ((un : Int), true)

/-- Go `strings.HasSuffix`. -/
def hasSuffixGo (s suffix : String) : Bool :=
  suffix.data.isSuffixOf s.data

/-- The whitespace recognised by Go `unicode.IsSpace` restricted to the
ASCII range the inbound values use. -/
def isSpaceGo (c : Char) : Bool :=
  c = ' ' || c = '\t' || c = '\n' || c = '\r'

/-- Go `strings.TrimSpace`. -/
def trimGo (s : String) : String :=
  String.mk (((s.data.dropWhile isSpaceGo).reverse.dropWhile isSpaceGo).reverse)

/-- ASCII lower-casing, the fragment of Go `strings.ToLower` the inbound
values exercise. -/
def toLowerChar (c : Char) : Char :=
  if 65 ≤ c.toNat ∧ c.toNat ≤ 90 then Char.ofNat (c.toNat + 32) else c

/-- Go `strings.ToLower`. -/
def toLowerGo (s : String) : String :=
  String.mk (s.data.map toLowerChar)

def splitCommaAux : List Char → List Char → List String
  | [], acc => [String.mk acc.reverse]
  | c :: rest, acc =>
    if c = ',' then String.mk acc.reverse :: splitCommaAux rest []
    else splitCommaAux rest (c :: acc)

/-- Go `strings.Split(s, ",")`. -/
def splitCommaGo (s : String) : List String :=
  splitCommaAux s.data []

/-- Lower-case hex digit, as Go `encoding/json` emits. -/
def hexDigit (n : Nat) : Char :=
  if n < 10 then Char.ofNat (48 + n) else Char.ofNat (87 + n)

/-- Go `encoding/json` string escaping (HTML escaping on, the default):
quote (34), backslash (92), the three named control escapes, `<` `>` `&`
as `\u00XX`, other control characters as `\u00XX`, and U+2028/U+2029. -/
def jsonEscapeChar (c : Char) : String :=
  if c.toNat = 34 then "\\\""
  else if c.toNat = 92 then "\\\\"
  else if c.toNat = 10 then "\\n"
  else if c.toNat = 13 then "\\r"
  else if c.toNat = 9 then "\\t"
  else if c.toNat = 60 then "\\u003c"
  else if c.toNat = 62 then "\\u003e"
  else if c.toNat = 38 then "\\u0026"
  else if c.toNat < 32 then "\\u00" ++ String.mk [hexDigit (c.toNat / 16), hexDigit (c.toNat % 16)]
  else if c.toNat = 8232 then "\\u2028"
  else if c.toNat = 8233 then "\\u2029"
  else String.singleton c

/-- A Go JSON string literal: quoted and escaped. -/
def jsonQuote (s : String) : String :=
  "\"" ++ String.join (s.data.map jsonEscapeChar) ++ "\""

/-- Join strings with a separator between consecutive elements only. -/
def joinWith (delim : String) : List String → String
  | [] => ""
  | [x] => x
  | x :: y :: xs => x ++ delim ++ joinWith delim (y :: xs)

/-! ## Data model (orchestra core, src/unnamed/part_004) -/

/-- Go `typeJson = iota` (0). -/
def typeJson : Nat := 0

/-- Go `typeDelimiter` (1). -/
def typeDelimiter : Nat := 1

/-- Go `defaultTimeout = 10 * time.Second`, in nanoseconds. -/
def defaultTimeout : Int := 10 * 1000000000

/-- Go `defaultDelimiter = "\n---XXX---\n"`. -/
def defaultDelimiter : String := "\n---XXX---\n"

/-- Go `errInvalidResponseType`'s message. -/
def errInvalidResponseType : String :=
  "Invalid Response Type specified. Must be one of typeJson, typeDelimiter"

/-- Go `ConnRequest`: the (id, url) pair used to initialize the Orchestra. -/
structure ConnRequest where
  id : String
  url : String
deriving DecidableEq, Repr, Inhabited

/-- The parts of `*http.Response` the code reads: `StatusCode`, `Status`
and the body stream.  `Body` holds the unread remainder of the stream;
reading drains it (a Go body cannot be rewound). -/
structure HttpResponse where
  StatusCode : Nat
  Status : String
  Body : String
deriving DecidableEq, Repr, Inhabited

/-- Go `Response`: wrapper around `*http.Response` (which is `none` when the
fetch failed), with the id, the error and the recorded duration. -/
structure Response where
  resp : Option HttpResponse
  id : String
  err : Option String
  duration : Int
deriving DecidableEq, Repr, Inhabited

/-- Go `respOutput`: the marshal-friendly struct; every field but `Id`
carries `omitempty`.  Defaults are the Go zero values. -/
structure respOutput where
  Id : String := ""
  StatusCode : Nat := 0
  Status : String := ""
  Duration : String := ""
  Body : String := ""
  Error : String := ""
deriving DecidableEq, Repr, Inhabited

/-- Go `Conn`: one connection handled by the Orchestra.  `Header` and
`Params` exist in the source but have no reachable effect on the claims
modelled here (the fetch oracle absorbs the request construction). -/
structure Conn where
  id : String
  url : String
  Header : List (String × String)
  Params : List (String × String)
  Timeout : Int
  Response : Option Response
deriving DecidableEq, Repr, Inhabited

/-- Go `Orchestra`: the aggregator state.  The mutex `cLock` guards only
structural mutation in the source and has no pure-state content. -/
structure Orchestra where
  conns : List Conn
  responseType : Nat
  delimiter : String
  timeout : Int
deriving DecidableEq, Repr, Inhabited

/-- The oracle for one outbound call: either the transport fails with an
error message, or a response arrives; `elapsed` is the wall-clock time
the call took (what `time.Since(now)` returns at completion). -/
inductive FetchOutcome where
  | failure (msg : String) (elapsed : Int)
  | success (resp : HttpResponse) (elapsed : Int)
deriving DecidableEq, Repr, Inhabited

/-! ## Response methods -/

/-- Go `durationStr`: `fmt.Sprintf("%vms", int64(r.duration)/1e6)` —
truncating (toward zero) division of nanoseconds by 1e6. -/
def durationStr (d : Int) : String :=
  toString (Int.tdiv d 1000000) ++ "ms"

/-- Go `Response.output`: error responses carry only `Id` and `Error`;
successes carry `Id`, `StatusCode`, `Status` and `Duration` (the `none`
fallbacks stand for the nil dereference the source would hit on a
response that is neither shape, which `Fetch` never produces). -/
def Response.output (r : Response) : respOutput :=
  match r.err with
  | some e => { Id := r.id, Error := e }
  | none =>
    { Id := r.id
      StatusCode := match r.resp with | some h => h.StatusCode | none => 0
      Status := match r.resp with | some h => h.Status | none => ""
      Duration := durationStr r.duration }

/-- Go `Response.ReadAll`: drain the body stream, returning the bytes read.
The `none` case stands for the nil dereference on a failed fetch. -/
def Response.ReadAll (r : Response) : String × Response :=
  match r.resp with
  | some h => (h.Body, { r with resp := some { h with Body := "" } })
  | none => ("", r)

/-- Marshaling of `respOutput` by `encoding/json`: fields in declaration
order, `omitempty` fields dropped at their zero value. -/
def marshalRespOutput (r : respOutput) : String :=
  "\x7b\"id\":" ++ jsonQuote r.Id
    ++ (if r.StatusCode = 0 then "" else ",\"status_code\":" ++ toString r.StatusCode)
    ++ (if r.Status = "" then "" else ",\"status\":" ++ jsonQuote r.Status)
    ++ (if r.Duration = "" then "" else ",\"duration\":" ++ jsonQuote r.Duration)
    ++ (if r.Body = "" then "" else ",\"body\":" ++ jsonQuote r.Body)
    ++ (if r.Error = "" then "" else ",\"error\":" ++ jsonQuote r.Error)
    ++ "\x7d"

/-- Go `Response.marshalErr`: marshal `respOutput{Id: id, Error: err}`. -/
def Response.marshalErr (id err : String) : String :=
  marshalRespOutput { Id := id, Error := err }

/-- Go `Response.MarshalJSON`: error shape marshals id and error only;
otherwise the body is drained from the stream and marshaled with the
status fields.  Returns the bytes and the post-read response state. -/
def Response.MarshalJSON (r : Response) : String × Response :=
  let o := r.output
  if o.Error ≠ "" then (Response.marshalErr r.id o.Error, r)
  else
    let br := r.ReadAll
    (marshalRespOutput { o with Body := br.1 }, br.2)

/-- Go `Response.writeErrTo`: `fmt.Sprintf("Id: %v, Status: %v\n%v\n", r.id,
"error", err)` — note the trailing line break after the error text. -/
def Response.writeErrTo (r : Response) (err : String) : String :=
  "Id: " ++ r.id ++ ", Status: error\n" ++ err ++ "\n"

/-- Go `Response.writeTo`: the delimiter-mode block.  Errors go through
`writeErrTo`; successes write the header line then copy the (remaining)
body stream, draining it.  Returns the bytes and the new state. -/
def Response.writeTo (r : Response) : String × Response :=
  let o := r.output
  if o.Error ≠ "" then (r.writeErrTo o.Error, r)
  else
    match r.resp with
    | some h =>
      ("Id: " ++ o.Id ++ ", Status: " ++ o.Status ++ ", Duration: " ++ durationStr r.duration
          ++ "\n" ++ h.Body,
        { r with resp := some { h with Body := "" } })
    | none => ("", r)

/-! ## Conn and Orchestra operations -/

/-- Go `NewConn`: fresh connection; Go leaves `Timeout` at its zero value,
the caller (`NewOrchestra`/`Add`) sets it. -/
def NewConn (r : ConnRequest) : Conn :=
  { id := r.id, url := r.url, Header := [], Params := [], Timeout := 0, Response := none }

/-- Go `Conn.Fetch`: run the call through the oracle.  A failure stores a
`Response` with nil http response, the error, and duration 0; a success
stores the response and the elapsed time. -/
def Conn.Fetch (c : Conn) (outcome : FetchOutcome) : Conn :=
  match outcome with
  | FetchOutcome.failure msg _ =>
    { c with Response := some { resp := none, id := c.id, err := some msg, duration := 0 } }
  | FetchOutcome.success h elapsed =>
    { c with Response := some { resp := some h, id := c.id, err := none, duration := elapsed } }

/-- Go `NewOrchestra`: one conn per request, each given `defaultTimeout`;
json output mode and the default delimiter. -/
def NewOrchestra (requests : List ConnRequest) : Orchestra :=
  { conns := requests.map (fun r => { NewConn r with Timeout := defaultTimeout })
    responseType := typeJson
    delimiter := defaultDelimiter
    timeout := defaultTimeout }

/-- Go `Orchestra.Add`: append a conn inheriting the current timeout. -/
def Orchestra.Add (o : Orchestra) (r : ConnRequest) : Orchestra :=
  { o with conns := o.conns ++ [{ NewConn r with Timeout := o.timeout }] }

/-- Go `Orchestra.SetTimeout`: store the timeout and push it onto every
already-registered conn. -/
def Orchestra.SetTimeout (o : Orchestra) (t : Int) : Orchestra :=
  { o with timeout := t, conns := o.conns.map (fun c => { c with Timeout := t }) }

/-- Go `Orchestra.SetDelimiter`: prepend a line break, append one only when
the argument does not already end with one, and switch to delimiter
mode. -/
def Orchestra.SetDelimiter (o : Orchestra) (d : String) : Orchestra :=
  { o with
      delimiter := "\n" ++ d ++ (if hasSuffixGo d "\n" then "" else "\n")
      responseType := typeDelimiter }

/-- Go `Orchestra.UseDelimeter` (sic): switch to delimiter mode. -/
def Orchestra.UseDelimeter (o : Orchestra) : Orchestra :=
  { o with responseType := typeDelimiter }

/-- Go `Orchestra.UseJson`: switch to json mode. -/
def Orchestra.UseJson (o : Orchestra) : Orchestra :=
  { o with responseType := typeJson }

/-- One conn's entry in json output: `encoding/json` calls the pointer
`MarshalJSON`; a nil `*Response` encodes as `null`. -/
def connMarshal (c : Conn) : String × Conn :=
  match c.Response with
  | some r => ((r.MarshalJSON).1, { c with Response := some (r.MarshalJSON).2 })
  | none => ("null", c)

/-- One conn's block in delimiter output (`Response.writeTo`); the `none`
case stands for the nil dereference on an unfetched conn. -/
def connBlock (c : Conn) : String × Conn :=
  match c.Response with
  | some r => ((r.writeTo).1, { c with Response := some (r.writeTo).2 })
  | none => ("", c)

/-- Go `outputJson`: build the response slice in conn order and encode it;
`json.Encoder.Encode` appends a newline after the array.  The writer
cannot fail, so the Go error result is nil and is not modelled. -/
def outputJson (o : Orchestra) : String × Orchestra :=
  ("[" ++ joinWith "," (o.conns.map (fun c => (connMarshal c).1)) ++ "]\n",
    { o with conns := o.conns.map (fun c => (connMarshal c).2) })

def outputDelimiterAux (delim : String) : List Conn → String × List Conn
  | [] => ("", [])
  | [c] => ((connBlock c).1, [(connBlock c).2])
  | c :: c2 :: rest =>
    ((connBlock c).1 ++ delim ++ (outputDelimiterAux delim (c2 :: rest)).1,
      (connBlock c).2 :: (outputDelimiterAux delim (c2 :: rest)).2)

/-- Go `outputDelimiter`: write each conn's block in slice order, writing
the delimiter after every block except the last. -/
def outputDelimiter (o : Orchestra) : String × Orchestra :=
  ((outputDelimiterAux o.delimiter o.conns).1,
    { o with conns := (outputDelimiterAux o.delimiter o.conns).2 })

/-- Go `processConns`: dispatch on the response type; json mode sets the
`Content-type` header first.  An unknown type is
`errInvalidResponseType`.  Result: content type, written bytes, state. -/
def processConns (o : Orchestra) : Except String (Option String × String × Orchestra) :=
  match o.responseType with
  | 1 => Except.ok (none, (outputDelimiter o).1, (outputDelimiter o).2)
  | 0 => Except.ok (some "application/json", (outputJson o).1, (outputJson o).2)
  | _ => Except.error errInvalidResponseType

/-- One step of the concurrent fan-out: the goroutine for index `i`
writes `conns[i].Fetch(...)` back into slot `i`. -/
def fetchStep (outcomes : Nat → FetchOutcome) (cs : List Conn) (i : Nat) : List Conn :=
  cs.set i ((cs.getD i default).Fetch (outcomes i))

/-- The fan-out with an explicit completion order: the goroutines'
writes land in the order given by `order` (a permutation of the conn
indices), each into its own slot. -/
def runFetchesOrdered (cs : List Conn) (outcomes : Nat → FetchOutcome) (order : List Nat) :
    List Conn :=
  order.foldl (fetchStep outcomes) cs

/-- The orchestra after `Process`'s fan-out barrier: every conn fetched,
writes landed in completion order `order`. -/
def afterFetch (o : Orchestra) (outcomes : Nat → FetchOutcome) (order : List Nat) : Orchestra :=
  { o with conns := runFetchesOrdered o.conns outcomes order }

/-- Go `Orchestra.Process`: fan out all conns, wait, then `processConns`.
The Go function returns nothing and discards `processConns`'s error, so
the caller observes only the response writer: the content-type header
and the written bytes (and the mutated state).  When `processConns`
fails nothing has been written. -/
def Orchestra.Process (o : Orchestra) (outcomes : Nat → FetchOutcome) (order : List Nat) :
    Option String × String × Orchestra :=
  match processConns (afterFetch o outcomes order) with
  | Except.ok r => r
  | Except.error _ => (none, "", afterFetch o outcomes order)

/-! ## HTTP boundary (src/server.go) -/

/-- Go `badRequestInvalidMsg`. -/
def badRequestInvalidMsg : String :=
  "Bad Request: entries should be in comma separated multiple \x27id:url\x27 format e.g. \x27sampleid:http://url.com,sampleid2:http://url2.com\x27"

/-- Go `badRequestRequiredMsg`. -/
def badRequestRequiredMsg : String :=
  "Bad Request: required parameter \x27requests\x27 missing."

/-- The `params` struct of server.go. -/
structure GoParams where
  requests : String
  timeout : Int
  respType : Int
  delimiter : String
deriving DecidableEq, Repr, Inhabited

/-- Go `digestRequest`: trim the `requests` value; lower-case and trim the
`type` value into -1/0/1; parse `timeout` (errors discarded) and convert
to a wrapped `int64` count of nanoseconds; pass `delimiter` through
raw. -/
def digestRequestGo (requestsV typeV timeoutV delimiterV : String) : GoParams :=
  let rs := trimGo requestsV
  let rt := toLowerGo (trimGo typeV)
  let respType : Int := if rt = "json" then 0 else if rt = "delimiter" then 1 else -1
  let t := trimGo timeoutV
  let timeout : Int := if t = "" then 0 else int64wrap ((goParseInt64 t).1 * 1000000)
  { requests := rs, timeout := timeout, respType := respType, delimiter := delimiterV }

/-- Split at the first colon, as `strings.SplitN(v, ":", 2)` does. -/
def splitFirstColon : List Char → Option (List Char × List Char)
  | [] => none
  | c :: rest =>
    if c = ':' then some ([], rest)
    else match splitFirstColon rest with
      | some p => some (c :: p.1, p.2)
      | none => none

/-- Go `strings.SplitN(v, ":", 2)`: one or two pieces. -/
def splitN2 (v : String) : List String :=
  match splitFirstColon v.data with
  | none => [v]
  | some p => [String.mk p.1, String.mk p.2]

/-- The handler's build loop over the comma-separated entries: the first
entry without a colon aborts (`none`); otherwise each entry becomes a
trimmed `ConnRequest`. -/
def buildCrs : List String → Option (List ConnRequest)
  | [] => some []
  | v :: rest =>
    match splitN2 v with
    | [a, b] => (buildCrs rest).map (fun l => ConnRequest.mk (trimGo a) (trimGo b) :: l)
    | _ => none

/-- What the handler does with an inbound request: reject it with a
status and message before any orchestra exists, or construct and
configure an orchestra and invoke `Process` on it. -/
inductive HandlerOutcome where
  | badRequest (status : Nat) (msg : String)
  | run (o : Orchestra)
deriving DecidableEq, Repr, Inhabited

/-- Outbound fetches the handler causes: none at all on a rejection; one
per conn once `Process` runs. -/
def attemptedFetches : HandlerOutcome → Nat
  | HandlerOutcome.badRequest _ _ => 0
  | HandlerOutcome.run o => o.conns.length

/-- Go `handler`: digest the query values; reject empty `requests`, then
reject on the first entry without a colon; otherwise build the
orchestra, apply a strictly positive timeout, apply the response type
(`delimiter` selects delimiter mode and installs a non-empty custom
delimiter; anything else known selects json), and process. -/
def handlerGo (requestsV typeV timeoutV delimiterV : String) : HandlerOutcome :=
  let p := digestRequestGo requestsV typeV timeoutV delimiterV
  if p.requests = "" then HandlerOutcome.badRequest 400 badRequestRequiredMsg
  else
    match buildCrs (splitCommaGo p.requests) with
    | none => HandlerOutcome.badRequest 400 badRequestInvalidMsg
    | some crs =>
      let o := NewOrchestra crs
      let o := if p.timeout > 0 then o.SetTimeout p.timeout else o
      let o :=
        if p.respType > -1 then
          if p.respType = 1 then
            let o := o.UseDelimeter
            if p.delimiter ≠ "" then o.SetDelimiter p.delimiter else o
          else o.UseJson
        else o
      HandlerOutcome.run o

/-! ## Spec-side definitions (for refinement statements)

These follow the wording of the specification, to be compared with the
definitions above, which follow the source. -/

/-- A JSON field value as the spec describes them: text or a number. -/
inductive JVal where
  | str (s : String)
  | num (n : Nat)
deriving DecidableEq, Repr

/-- Render one `key: value` member. -/
def renderJField : String × JVal → String
  | (k, JVal.str s) => jsonQuote k ++ ":" ++ jsonQuote s
  | (k, JVal.num n) => jsonQuote k ++ ":" ++ toString n

/-- An object carrying exactly the given fields, in the given order. -/
def specJsonObject (fs : List (String × JVal)) : String :=
  "\x7b" ++ joinWith "," (fs.map renderJField) ++ "\x7d"

/-- Spec wording: a success block is the header line
`Id: <id>, Status: <statusText>, Duration: <duration>` followed by a
line break and the raw body text. -/
def specSuccessBlock (id status dur body : String) : String :=
  "Id: " ++ id ++ ", Status: " ++ status ++ ", Duration: " ++ dur ++ "\n" ++ body

/-- The claim's wording of a failure block: the header line
`Id: <id>, Status: error` followed by a line break and the error text. -/
def specFailureBlockClaim (id err : String) : String :=
  "Id: " ++ id ++ ", Status: error\n" ++ err

/-- The failure block the code actually writes: the claim's block with
one more trailing line break. -/
def specFailureBlockAmended (id err : String) : String :=
  specFailureBlockClaim id err ++ "\n"

/-- The delimiter-mode block of one conn, per the (amended) spec. -/
def specBlockOf (c : Conn) : String :=
  match c.Response with
  | some r =>
    match r.err with
    | some e => specFailureBlockAmended r.id e
    | none =>
      match r.resp with
      | some h => specSuccessBlock r.id h.Status (durationStr r.duration) h.Body
      | none => ""
  | none => ""

/-- The delimiter-mode block of one conn, per the claim's unamended
wording (no trailing line break after a failure's error text). -/
def claimBlockOf (c : Conn) : String :=
  match c.Response with
  | some r =>
    match r.err with
    | some e => specFailureBlockClaim r.id e
    | none =>
      match r.resp with
      | some h => specSuccessBlock r.id h.Status (durationStr r.duration) h.Body
      | none => ""
  | none => ""

/-- The json entries, one per conn, in conn order. -/
def jsonEntryList (o : Orchestra) : List String :=
  o.conns.map (fun c => (connMarshal c).1)

/-- The delimiter blocks, one per conn, in conn order. -/
def delimBlockList (o : Orchestra) : List String :=
  o.conns.map (fun c => (connBlock c).1)

/-- A result record of one of the two shapes `Fetch` produces, with a
non-empty error message on failure (every Go transport error the client
can return renders non-empty). -/
def respWF (r : Response) : Bool :=
  match r.err with
  | some e => e != ""
  | none => r.resp.isSome

/-- A conn holding a well-formed completed result record. -/
def connFetched (c : Conn) : Bool :=
  match c.Response with
  | some r => respWF r
  | none => false

/-! ## Sample objects for concrete witnesses and counterexamples -/

def sampleRespOk : Response :=
  { resp := some { StatusCode := 200, Status := "200 OK", Body := "X" }
    id := "a", err := none, duration := 0 }

def sampleRespErr : Response :=
  { resp := none, id := "a", err := some "boom", duration := 0 }

def sampleConnOk : Conn :=
  { id := "a", url := "u", Header := [], Params := [], Timeout := defaultTimeout
    Response := some sampleRespOk }

def sampleConnErr : Conn :=
  { id := "b", url := "v", Header := [], Params := [], Timeout := defaultTimeout
    Response := some sampleRespErr }

def sampleOrcJson : Orchestra :=
  { conns := [sampleConnOk], responseType := 0, delimiter := defaultDelimiter
    timeout := defaultTimeout }

def sampleOrcDelim : Orchestra :=
  { conns := [sampleConnErr], responseType := 1, delimiter := "\n====\n"
    timeout := defaultTimeout }

def sampleOrcBad : Orchestra :=
  { conns := [sampleConnOk], responseType := 2, delimiter := defaultDelimiter
    timeout := defaultTimeout }

def sampleOrcBad5 : Orchestra :=
  { conns := [], responseType := 5, delimiter := defaultDelimiter
    timeout := defaultTimeout }

def sampleOutcomes : Nat → FetchOutcome := fun i =>
  if i = 0 then FetchOutcome.success { StatusCode := 200, Status := "200 OK", Body := "A" } 3000000
  else FetchOutcome.failure "connection refused" 4000000

def sampleOrcTwo : Orchestra :=
  { conns :=
      [{ id := "a", url := "u1", Header := [], Params := [], Timeout := defaultTimeout
         Response := none },
       { id := "b", url := "u2", Header := [], Params := [], Timeout := defaultTimeout
         Response := none }]
    responseType := 0, delimiter := defaultDelimiter, timeout := defaultTimeout }

/-! ## Helper lemmas -/

theorem goParseInt64_fail_values (s : String) (h : (goParseInt64 s).2 = false) :
    (goParseInt64 s).1 = 0 ∨ (goParseInt64 s).1 = 2 ^ 63 - 1 ∨
      (goParseInt64 s).1 = -(2 ^ 63) := by
  unfold goParseInt64 at h ⊢
  rcases hp : parseDigits (signSplit s.data).2 with _ | n <;> simp only [hp] at h ⊢
  · trivial
  · split_ifs at h ⊢ <;> simp_all

theorem int64wrap_fail_nonpos (v : Int)
    (h : v = 0 ∨ v = 2 ^ 63 - 1 ∨ v = -(2 ^ 63)) :
    int64wrap (v * 1000000) ≤ 0 := by
  rcases h with h | h | h <;> subst h <;> decide

/-! ## Claim theorems -/

/-- Claim C6: `SetTimeout d` sets the stored default to `d` and
retroactively sets every already-registered conn's timeout to `d`, and a
conn added afterwards is appended with timeout `d`. -/
theorem setTimeout_retroactive_and_default (o : Orchestra) (d : Int) (r : ConnRequest) :
    (o.SetTimeout d).timeout = d ∧
    ((o.SetTimeout d).conns.all (fun c => c.Timeout == d)) = true ∧
    ((o.SetTimeout d).Add r).conns
      = (o.SetTimeout d).conns ++ [{ NewConn r with Timeout := d }] := by
  refine ⟨rfl, ?_, rfl⟩
  simp [Orchestra.SetTimeout, List.all_eq_true]

/-- Claim C8: after `SetDelimiter d` the stored delimiter starts and
ends with a line break: a leading one is always prepended and a trailing
one is appended exactly when `d` does not already end with one. -/
theorem setDelimiter_newline_framed (o : Orchestra) (d : String) :
    (o.SetDelimiter d).delimiter
      = "\n" ++ d ++ (if hasSuffixGo d "\n" then "" else "\n") ∧
    (o.SetDelimiter d).delimiter.data.head? = some '\n' ∧
    (o.SetDelimiter d).delimiter.data.getLast? = some '\n' := by
  refine ⟨rfl, rfl, ?_⟩
  show ("\n" ++ d ++ (if hasSuffixGo d "\n" then "" else "\n")).data.getLast? = some '\n'
  by_cases hs : hasSuffixGo d "\n"
  · rw [if_pos hs]
    have hsuf : ['\n'] <:+ d.data :=
      List.isSuffixOf_iff_suffix.mp hs
    rcases hsuf with ⟨p, hp⟩
    have : ("\n" ++ d ++ "").data = ('\n' :: p) ++ ['\n'] := by
      show '\n' :: d.data ++ [] = ('\n' :: p) ++ ['\n']
      rw [← hp]
      simp
    rw [this]
    exact List.getLast?_concat _
  · rw [if_neg hs]
    have : ("\n" ++ d ++ "\n").data = ('\n' :: d.data) ++ ['\n'] := by
      show '\n' :: d.data ++ ['\n'] = ('\n' :: d.data) ++ ['\n']
      simp
    rw [this]
    exact List.getLast?_concat _

/-- Claim C9 counterexample: a fetch that fails after 5ms of wall-clock
time stores duration 0, not the measured elapsed time — the duration is
not "measured from call issuance to completion (success or failure)". -/
theorem failure_duration_not_measured :
    ((NewConn (ConnRequest.mk "a" "u")).Fetch
        (FetchOutcome.failure "connection refused" 5000000)).Response
      = some { resp := none, id := "a", err := some "connection refused", duration := 0 } ∧
    (5000000 : Int) ≠ 0 := by
  exact ⟨rfl, by decide⟩

/-- Claim C9 (amended): the elapsed time is stored only on success;
failures store duration 0.  The duration string is the stored
nanosecond count divided by 1e6 (truncating) with an `ms` suffix, and it
is serialized only in success records (failure records render no
duration at all). -/
theorem duration_stored_and_serialized (c : Conn) (msg : String) (h : HttpResponse) (d : Int) :
    ((c.Fetch (FetchOutcome.success h d)).Response.map (fun r => r.duration) = some d) ∧
    ((c.Fetch (FetchOutcome.failure msg d)).Response.map (fun r => r.duration) = some 0) ∧
    (durationStr d = toString (Int.tdiv d 1000000) ++ "ms") ∧
    ((Response.mk (some h) c.id none d).output.Duration = durationStr d) ∧
    ((Response.mk none c.id (some msg) 0).output.Duration = "") :=
  ⟨rfl, rfl, rfl, rfl, rfl⟩

/-- Claim C2 counterexample: with output mode 2, `processConns` computes
the invalid-response-type error, but `Process` — which in the source
returns nothing and ignores `processConns`'s result — leaves its caller
with no content type, no written bytes and no error value: the error is
not surfaced to the caller of `Process`. -/
theorem process_swallows_invalid_type_error :
    processConns sampleOrcBad = Except.error errInvalidResponseType ∧
    sampleOrcBad.Process sampleOutcomes [0]
      = (none, "", afterFetch sampleOrcBad sampleOutcomes [0]) :=
  ⟨rfl, rfl⟩

/-- Claim C2 (amended): for every state whose output mode is neither
json nor delimiter, `processConns` returns the invalid-response-type
error to its caller and nothing is written — there is no silent
defaulting — but `Process` discards that error, so the caller of
`Process` observes only an empty response. -/
theorem invalid_type_error_returned_but_swallowed (o : Orchestra)
    (outcomes : Nat → FetchOutcome) (order : List Nat)
    (h0 : o.responseType ≠ typeJson) (h1 : o.responseType ≠ typeDelimiter) :
    processConns o = Except.error errInvalidResponseType ∧
    o.Process outcomes order = (none, "", afterFetch o outcomes order) := by
  have key : ∀ o' : Orchestra, o'.responseType = o.responseType →
      processConns o' = Except.error errInvalidResponseType := by
    intro o' h
    unfold processConns
    split <;> simp_all [typeJson, typeDelimiter]
  refine ⟨key o rfl, ?_⟩
  unfold Orchestra.Process
  rw [key (afterFetch o outcomes order) rfl]

theorem invalid_type_error_witness :
    sampleOrcBad5.responseType ≠ typeJson ∧
    sampleOrcBad5.responseType ≠ typeDelimiter ∧
    (processConns sampleOrcBad5 = Except.error errInvalidResponseType ∧
      sampleOrcBad5.Process sampleOutcomes []
        = (none, "", afterFetch sampleOrcBad5 sampleOutcomes [])) :=
  ⟨by decide, by decide,
    invalid_type_error_returned_but_swallowed sampleOrcBad5 sampleOutcomes []
      (by decide) (by decide)⟩

/-- Claim C10 counterexample: `timeout=9223372036854775808` is not a
valid `int64`, the parse error is discarded — but the parsed value is
the saturated bound 2^63-1, not 0 as the claim states.  (The computed
duration still wraps to a negative, so `SetTimeout` is still skipped.) -/
theorem timeout_range_error_not_zero :
    (goParseInt64 "9223372036854775808").2 = false ∧
    (goParseInt64 "9223372036854775808").1 = 2 ^ 63 - 1 ∧
    ¬((goParseInt64 "9223372036854775808").1 = 0) ∧
    (digestRequestGo "a:u" "" "9223372036854775808" "").timeout = -1000000 := by
  refine ⟨by decide, by decide, by decide, by decide⟩

/-- Claim C10 (amended): whenever parsing the `timeout` value fails, the
error is silently discarded and the computed duration is never positive
(0 on a syntax error, non-positive after int64 wrap-around on a range
error), so `SetTimeout` is never invoked — the handler only applies
strictly positive timeouts — and the batch keeps the default timeout of
10,000 ms on the orchestra and on every conn; no error is reported. -/
theorem invalid_timeout_ignored (requestsV typeV timeoutV delimiterV : String) (o : Orchestra)
    (hfail : (goParseInt64 (trimGo timeoutV)).2 = false)
    (hrun : handlerGo requestsV typeV timeoutV delimiterV = HandlerOutcome.run o) :
    (digestRequestGo requestsV typeV timeoutV delimiterV).timeout ≤ 0 ∧
    o.timeout = defaultTimeout ∧
    (o.conns.all (fun c => c.Timeout == defaultTimeout)) = true ∧
    defaultTimeout = 10000 * 1000000 := by
  have htle : (digestRequestGo requestsV typeV timeoutV delimiterV).timeout ≤ 0 := by
    simp only [digestRequestGo]
    split_ifs with ht
    · exact le_refl 0
    · exact int64wrap_fail_nonpos _ (goParseInt64_fail_values _ hfail)
  refine ⟨htle, ?_⟩
  unfold handlerGo at hrun
  by_cases hreq : (digestRequestGo requestsV typeV timeoutV delimiterV).requests = ""
  · rw [if_pos hreq] at hrun
    exact absurd hrun (by simp)
  · rw [if_neg hreq] at hrun
    rcases hcrs : buildCrs (splitCommaGo
        (digestRequestGo requestsV typeV timeoutV delimiterV).requests)
      with _ | crs <;> simp only [hcrs] at hrun
    · exact absurd hrun (by simp)
    · rw [if_neg (not_lt.mpr htle)] at hrun
      have hall : ∀ o1 : Orchestra, HandlerOutcome.run o1 = HandlerOutcome.run o →
          o1.timeout = (NewOrchestra crs).timeout → o1.conns = (NewOrchestra crs).conns →
          o.timeout = defaultTimeout ∧
            (o.conns.all (fun c => c.Timeout == defaultTimeout)) = true ∧
            defaultTimeout = 10000 * 1000000 := by
        intro o1 hro ht hc
        have ho : o1 = o := by
          simpa [HandlerOutcome.run.injEq] using hro
        subst ho
        refine ⟨ht, ?_, by decide⟩
        rw [hc]
        simp [NewOrchestra, List.all_eq_true]
      split_ifs at hrun with h1 h2 h3
      · exact hall _ hrun rfl rfl
      · exact hall _ hrun rfl rfl
      · exact hall _ hrun rfl rfl
      · exact hall _ hrun rfl rfl

theorem invalid_timeout_ignored_witness :
    (goParseInt64 (trimGo "abc")).2 = false ∧
    handlerGo "a:u" "" "abc" "" = HandlerOutcome.run (NewOrchestra [ConnRequest.mk "a" "u"]) ∧
    ((digestRequestGo "a:u" "" "abc" "").timeout ≤ 0 ∧
      (NewOrchestra [ConnRequest.mk "a" "u"]).timeout = defaultTimeout ∧
      ((NewOrchestra [ConnRequest.mk "a" "u"]).conns.all
          (fun c => c.Timeout == defaultTimeout)) = true ∧
      defaultTimeout = 10000 * 1000000) :=
  ⟨by decide, by decide,
    invalid_timeout_ignored "a:u" "" "abc" "" (NewOrchestra [ConnRequest.mk "a" "u"])
      (by decide) (by decide)⟩

theorem splitN2_cases (v : String) :
    (∃ a, splitN2 v = [a]) ∨ ∃ a b, splitN2 v = [a, b] := by
  unfold splitN2
  cases splitFirstColon v.data with
  | none => exact Or.inl ⟨v, rfl⟩
  | some p => exact Or.inr ⟨String.mk p.1, String.mk p.2, rfl⟩

theorem buildCrs_eq_none (l : List String) :
    buildCrs l = none ↔ ∃ v ∈ l, (splitN2 v).length < 2 := by
  induction l with
  | nil => simp [buildCrs]
  | cons v rest ih =>
    have hstep : buildCrs (v :: rest)
        = match splitN2 v with
          | [a, b] => (buildCrs rest).map (fun l => ConnRequest.mk (trimGo a) (trimGo b) :: l)
          | _ => none := rfl
    rw [hstep]
    rcases hs : splitN2 v with _ | ⟨a, _ | ⟨b, _ | ⟨c, cs⟩⟩⟩ <;> simp only [hs]
    · constructor
      · intro _
        exact ⟨v, List.mem_cons_self v rest, by simp [hs]⟩
      · intro _
        trivial
    · constructor
      · intro _
        exact ⟨v, List.mem_cons_self v rest, by simp [hs]⟩
      · intro _
        trivial
    · rw [Option.map_eq_none', ih]
      constructor
      · rintro ⟨w, hw, hlt⟩
        exact ⟨w, List.mem_cons_of_mem v hw, hlt⟩
      · rintro ⟨w, hw, hlt⟩
        rcases List.mem_cons.mp hw with hv | hw2
        · subst hv
          rw [hs] at hlt
          simp at hlt
        · exact ⟨w, hw2, hlt⟩
    · exfalso
      rcases splitN2_cases v with ⟨x, hx⟩ | ⟨x, y, hxy⟩
      · rw [hs] at hx
        simp at hx
      · rw [hs] at hxy
        simp at hxy

/-- Claim C7: an inbound request whose `requests` value is empty after
trimming, or contains an entry with no colon, is rejected with status
400 and the corresponding fixed message, before any orchestra is
constructed and before any outbound fetch is attempted. -/
theorem bad_requests_rejected_before_fetch (requestsV typeV timeoutV delimiterV : String)
    (h : trimGo requestsV = "" ∨
      ∃ v ∈ splitCommaGo (trimGo requestsV), (splitN2 v).length < 2) :
    handlerGo requestsV typeV timeoutV delimiterV
      = HandlerOutcome.badRequest 400
          (if trimGo requestsV = "" then badRequestRequiredMsg else badRequestInvalidMsg) ∧
    attemptedFetches (handlerGo requestsV typeV timeoutV delimiterV) = 0 := by
  have hmain : handlerGo requestsV typeV timeoutV delimiterV
      = HandlerOutcome.badRequest 400
          (if trimGo requestsV = "" then badRequestRequiredMsg else badRequestInvalidMsg) := by
    simp only [handlerGo, digestRequestGo]
    by_cases hreq : trimGo requestsV = ""
    · rw [if_pos hreq, if_pos hreq]
    · have hbad : ∃ v ∈ splitCommaGo (trimGo requestsV), (splitN2 v).length < 2 :=
        h.resolve_left hreq
      rw [if_neg hreq, if_neg hreq, (buildCrs_eq_none _).mpr hbad]
  exact ⟨hmain, by rw [hmain]; rfl⟩

theorem bad_requests_rejected_witness :
    (trimGo "id1" = "" ∨ ∃ v ∈ splitCommaGo (trimGo "id1"), (splitN2 v).length < 2) ∧
    (handlerGo "id1" "" "" ""
        = HandlerOutcome.badRequest 400
            (if trimGo "id1" = "" then badRequestRequiredMsg else badRequestInvalidMsg) ∧
      attemptedFetches (handlerGo "id1" "" "" "") = 0) :=
  ⟨by decide, bad_requests_rejected_before_fetch "id1" "" "" "" (by decide)⟩

theorem length_fetchStep (outcomes : Nat → FetchOutcome) (cs : List Conn) (j : Nat) :
    (fetchStep outcomes cs j).length = cs.length := by
  simp [fetchStep]

theorem length_runFetchesOrdered (outcomes : Nat → FetchOutcome) :
    ∀ (order : List Nat) (cs : List Conn),
      (runFetchesOrdered cs outcomes order).length = cs.length
  | [], _ => rfl
  | j :: rest, cs => by
    show (runFetchesOrdered (fetchStep outcomes cs j) outcomes rest).length = cs.length
    rw [length_runFetchesOrdered outcomes rest (fetchStep outcomes cs j)]
    exact length_fetchStep outcomes cs j

theorem runFetchesOrdered_getElem? (outcomes : Nat → FetchOutcome) :
    ∀ (order : List Nat) (cs : List Conn), order.Nodup →
      (∀ j ∈ order, j < cs.length) → ∀ i : Nat,
      (runFetchesOrdered cs outcomes order)[i]? =
        if i ∈ order then some ((cs.getD i default).Fetch (outcomes i)) else cs[i]?
  | [], cs, _, _, i => by simp [runFetchesOrdered]
  | j :: rest, cs, hnd, hbd, i => by
    have hj : j < cs.length := hbd j (List.mem_cons_self j rest)
    obtain ⟨hjr, hndr⟩ := List.nodup_cons.mp hnd
    have hbdr : ∀ k ∈ rest, k < (fetchStep outcomes cs j).length := by
      intro k hk
      rw [length_fetchStep]
      exact hbd k (List.mem_cons_of_mem j hk)
    have ih := runFetchesOrdered_getElem? outcomes rest (fetchStep outcomes cs j) hndr hbdr i
    show (runFetchesOrdered (fetchStep outcomes cs j) outcomes rest)[i]? = _
    rw [ih]
    by_cases hij : i = j
    · subst hij
      rw [if_neg hjr, if_pos (List.mem_cons_self i rest)]
      show (cs.set i ((cs.getD i default).Fetch (outcomes i)))[i]? = _
      rw [List.getElem?_set_self hj]
    · have hmm : (i ∈ j :: rest) ↔ i ∈ rest := by
        simp [List.mem_cons, hij]
      have hgetD : (fetchStep outcomes cs j).getD i default = cs.getD i default := by
        rw [List.getD_eq_getElem?_getD, List.getD_eq_getElem?_getD]
        show ((cs.set j ((cs.getD j default).Fetch (outcomes j)))[i]?).getD default = _
        rw [List.getElem?_set_ne (fun hh => hij hh.symm)]
      have hget? : (fetchStep outcomes cs j)[i]? = cs[i]? := by
        show (cs.set j ((cs.getD j default).Fetch (outcomes j)))[i]? = cs[i]?
        rw [List.getElem?_set_ne (fun hh => hij hh.symm)]
      by_cases hir : i ∈ rest
      · rw [if_pos hir, if_pos (hmm.mpr hir), hgetD]
      · rw [if_neg hir, if_neg (fun hh => hir (hmm.mp hh)), hget?]

theorem runFetchesOrdered_perm (cs : List Conn) (outcomes : Nat → FetchOutcome)
    (order : List Nat) (hperm : order.Perm (List.range cs.length)) :
    runFetchesOrdered cs outcomes order
      = (List.range cs.length).map (fun i => (cs.getD i default).Fetch (outcomes i)) := by
  have hnd : order.Nodup := hperm.symm.nodup (List.nodup_range cs.length)
  have hmem : ∀ j : Nat, j ∈ order ↔ j < cs.length := by
    intro j
    rw [hperm.mem_iff, List.mem_range]
  apply List.ext_getElem?
  intro i
  rw [runFetchesOrdered_getElem? outcomes order cs hnd (fun j hj => (hmem j).mp hj) i]
  by_cases hi : i < cs.length
  · rw [if_pos ((hmem i).mpr hi), List.getElem?_map, List.getElem?_range hi]
    rfl
  · rw [if_neg (fun hh => hi ((hmem i).mp hh)), List.getElem?_map]
    rw [List.getElem?_eq_none_iff.mpr (by simpa using not_lt.mp hi),
      List.getElem?_eq_none_iff.mpr (by simpa using not_lt.mp hi)]
    rfl

theorem outputDelimiterAux_fst (delim : String) :
    ∀ cs : List Conn, (outputDelimiterAux delim cs).1
      = joinWith delim (cs.map (fun c => (connBlock c).1))
  | [] => rfl
  | [_] => rfl
  | c :: c2 :: rest => by
    have ih := outputDelimiterAux_fst delim (c2 :: rest)
    show (connBlock c).1 ++ delim ++ (outputDelimiterAux delim (c2 :: rest)).1
      = joinWith delim ((connBlock c).1 :: (connBlock c2).1 :: rest.map (fun x => (connBlock x).1))
    rw [ih]
    rfl

/-- Claim C1: after the fan-out, whatever order the fetch completions
landed in (any permutation of the conn indices), both formatters
produce exactly one entry per registered conn, in registration order:
the json output is the bracketed comma-join of the per-conn entries and
the delimiter output is the delimiter-join of the per-conn blocks, and
the entry at position i is exactly the rendering of conn i fetched with
its own outcome — independent of the completion order. -/
theorem output_entries_in_registration_order (o : Orchestra) (outcomes : Nat → FetchOutcome)
    (order : List Nat) (hperm : order.Perm (List.range o.conns.length)) :
    ((afterFetch o outcomes order).conns.length = o.conns.length) ∧
    ((outputJson (afterFetch o outcomes order)).1
        = "[" ++ joinWith "," (jsonEntryList (afterFetch o outcomes order)) ++ "]\n") ∧
    ((outputDelimiter (afterFetch o outcomes order)).1
        = joinWith o.delimiter (delimBlockList (afterFetch o outcomes order))) ∧
    (jsonEntryList (afterFetch o outcomes order)
        = (List.range o.conns.length).map
            (fun i => (connMarshal ((o.conns.getD i default).Fetch (outcomes i))).1)) ∧
    (delimBlockList (afterFetch o outcomes order)
        = (List.range o.conns.length).map
            (fun i => (connBlock ((o.conns.getD i default).Fetch (outcomes i))).1)) := by
  refine ⟨length_runFetchesOrdered outcomes order o.conns, rfl, ?_, ?_, ?_⟩
  · show (outputDelimiterAux o.delimiter (runFetchesOrdered o.conns outcomes order)).1 = _
    rw [outputDelimiterAux_fst]
    rfl
  · show (runFetchesOrdered o.conns outcomes order).map (fun c => (connMarshal c).1) = _
    rw [runFetchesOrdered_perm o.conns outcomes order hperm, List.map_map]
    rfl
  · show (runFetchesOrdered o.conns outcomes order).map (fun c => (connBlock c).1) = _
    rw [runFetchesOrdered_perm o.conns outcomes order hperm, List.map_map]
    rfl

theorem output_entries_witness :
    ([1, 0] : List Nat).Perm (List.range sampleOrcTwo.conns.length) ∧
    (((afterFetch sampleOrcTwo sampleOutcomes [1, 0]).conns.length
        = sampleOrcTwo.conns.length) ∧
      ((outputJson (afterFetch sampleOrcTwo sampleOutcomes [1, 0])).1
          = "[" ++ joinWith "," (jsonEntryList (afterFetch sampleOrcTwo sampleOutcomes [1, 0]))
              ++ "]\n") ∧
      ((outputDelimiter (afterFetch sampleOrcTwo sampleOutcomes [1, 0])).1
          = joinWith sampleOrcTwo.delimiter
              (delimBlockList (afterFetch sampleOrcTwo sampleOutcomes [1, 0]))) ∧
      (jsonEntryList (afterFetch sampleOrcTwo sampleOutcomes [1, 0])
          = (List.range sampleOrcTwo.conns.length).map
              (fun i => (connMarshal ((sampleOrcTwo.conns.getD i default).Fetch
                  (sampleOutcomes i))).1)) ∧
      (delimBlockList (afterFetch sampleOrcTwo sampleOutcomes [1, 0])
          = (List.range sampleOrcTwo.conns.length).map
              (fun i => (connBlock ((sampleOrcTwo.conns.getD i default).Fetch
                  (sampleOutcomes i))).1))) :=
  ⟨by decide,
    output_entries_in_registration_order sampleOrcTwo sampleOutcomes [1, 0] (by decide)⟩

/-- Claim C3 counterexample: serializing the same completed batch twice
through the json formatter is not byte-identical: the body is never
cached, so the second pass reads the already-consumed stream, gets no
bytes, and omits the body field. -/
theorem reserialization_not_idempotent :
    (outputJson sampleOrcJson).1
      = "[\x7b\"id\":\"a\",\"status_code\":200,\"status\":\"200 OK\",\"duration\":\"0ms\",\"body\":\"X\"\x7d]\n" ∧
    (outputJson (outputJson sampleOrcJson).2).1
      = "[\x7b\"id\":\"a\",\"status_code\":200,\"status\":\"200 OK\",\"duration\":\"0ms\"\x7d]\n" ∧
    (outputJson sampleOrcJson).1 ≠ (outputJson (outputJson sampleOrcJson).2).1 :=
  ⟨by decide, by decide, by decide⟩

theorem marshalJSON_state_fixpoint (r : Response) :
    ((r.MarshalJSON).2).MarshalJSON.2 = (r.MarshalJSON).2 := by
  rcases r with ⟨resp, rid, rerr, rdur⟩
  cases rerr with
  | some e =>
    by_cases he : e = ""
    · subst he
      cases resp with
      | some h => simp [Response.MarshalJSON, Response.output, Response.ReadAll]
      | none => simp [Response.MarshalJSON, Response.output, Response.ReadAll]
    · simp [Response.MarshalJSON, Response.output, he]
  | none =>
    cases resp with
    | some h => simp [Response.MarshalJSON, Response.output, Response.ReadAll]
    | none => simp [Response.MarshalJSON, Response.output, Response.ReadAll]

theorem connMarshal_snd_fixpoint (c : Conn) :
    (connMarshal (connMarshal c).2).2 = (connMarshal c).2 := by
  cases hr : c.Response with
  | none => simp [connMarshal, hr]
  | some r => simp [connMarshal, hr, marshalJSON_state_fixpoint]

/-- Claim C3 (amended): nothing is cached — the first serialization
drains every body stream, so the state after one serialization is a
fixpoint: all serializations from the second onward see identical state
and emit byte-identical output, while the first run differs whenever
some body was non-empty. -/
theorem reserialization_stable_from_second (o : Orchestra) :
    (outputJson (outputJson o).2).2 = (outputJson o).2 ∧
    (outputJson (outputJson (outputJson o).2).2).1 = (outputJson (outputJson o).2).1 := by
  have hmap : ∀ cs : List Conn,
      (cs.map (fun c => (connMarshal c).2)).map (fun c => (connMarshal c).2)
        = cs.map (fun c => (connMarshal c).2) := by
    intro cs
    rw [List.map_map]
    apply List.map_congr_left
    intro c _
    show (connMarshal (connMarshal c).2).2 = (connMarshal c).2
    exact connMarshal_snd_fixpoint c
  have hfix : (outputJson (outputJson o).2).2 = (outputJson o).2 := by
    simp [outputJson, hmap]
  exact ⟨hfix, by rw [hfix]⟩

theorem writeTo_spec_block (c : Conn) (h : connFetched c = true) :
    (connBlock c).1 = specBlockOf c := by
  cases hr : c.Response with
  | none =>
    unfold connFetched at h
    rw [hr] at h
    simp at h
  | some r =>
    have hwf : respWF r = true := by
      unfold connFetched at h
      rw [hr] at h
      exact h
    rcases r with ⟨resp, rid, rerr, rdur⟩
    cases rerr with
    | some e =>
      have hne : e ≠ "" := by
        unfold respWF at hwf
        simpa using hwf
      simp [connBlock, hr, Response.writeTo, Response.output, Response.writeErrTo,
        specBlockOf, specFailureBlockAmended, specFailureBlockClaim, hne]
    | none =>
      cases resp with
      | some hres =>
        simp [connBlock, hr, Response.writeTo, Response.output, specBlockOf,
          specSuccessBlock]
      | none =>
        unfold respWF at hwf
        simp at hwf

/-- Claim C5 counterexample: a failure block carries a trailing line
break after the error text, so the delimiter-mode output is not exactly
the join of the blocks as the claim words them. -/
theorem failure_block_trailing_break :
    (outputDelimiter sampleOrcDelim).1 = "Id: a, Status: error\nboom\n" ∧
    joinWith sampleOrcDelim.delimiter (sampleOrcDelim.conns.map claimBlockOf)
      = "Id: a, Status: error\nboom" ∧
    (outputDelimiter sampleOrcDelim).1
      ≠ joinWith sampleOrcDelim.delimiter (sampleOrcDelim.conns.map claimBlockOf) :=
  ⟨by decide, by decide, by decide⟩

/-- Claim C5 (amended): the delimiter-mode output is exactly the
per-unit blocks joined by the configured delimiter (none before the
first or after the last); a success block is the header line
`Id: <id>, Status: <statusText>, Duration: <duration>` then a line break
then the raw body text, and a failure block is the header line
`Id: <id>, Status: error` then a line break then the error text followed
by one more line break. -/
theorem delimiter_output_joins_blocks (o : Orchestra)
    (h : o.conns.all connFetched = true) :
    (outputDelimiter o).1 = joinWith o.delimiter (o.conns.map specBlockOf) := by
  show (outputDelimiterAux o.delimiter o.conns).1 = _
  rw [outputDelimiterAux_fst]
  congr 1
  apply List.map_congr_left
  intro c hc
  exact writeTo_spec_block c (by rw [List.all_eq_true] at h; exact h c hc)

theorem delimiter_output_joins_witness :
    (sampleOrcDelim.conns.all connFetched = true) ∧
    (outputDelimiter sampleOrcDelim).1
      = joinWith sampleOrcDelim.delimiter (sampleOrcDelim.conns.map specBlockOf) :=
  ⟨by decide, delimiter_output_joins_blocks sampleOrcDelim (by decide)⟩

theorem durationStr_ne_empty (d : Int) : durationStr d ≠ "" := by
  intro h
  have h2 : (durationStr d).data = [] := by rw [h]
  have h3 : (durationStr d).data = (toString (Int.tdiv d 1000000)).data ++ ['m', 's'] := rfl
  rw [h3] at h2
  simp at h2

/-- Claim C4: a structured-mode object carries exactly the fields of its
record's shape: a success record for status 200 with body `X` has the
id, `status_code: 200`, `status: "200 OK"`, a duration string and
`body: "X"`, with no error field; a failure record has exactly the id
and error fields; omitted fields are absent, not null or empty. -/
theorem json_fields_by_shape (idS e : String) (d : Int) (he : e ≠ "") :
    (Response.mk (some (HttpResponse.mk 200 "200 OK" "X")) idS none d).MarshalJSON.1
      = specJsonObject [("id", JVal.str idS), ("status_code", JVal.num 200),
          ("status", JVal.str "200 OK"), ("duration", JVal.str (durationStr d)),
          ("body", JVal.str "X")] ∧
    (Response.mk none idS (some e) 0).MarshalJSON.1
      = specJsonObject [("id", JVal.str idS), ("error", JVal.str e)] := by
  have hqid : jsonQuote "id" = "\"id\"" := rfl
  have hqsc : jsonQuote "status_code" = "\"status_code\"" := rfl
  have hqst : jsonQuote "status" = "\"status\"" := rfl
  have hqdu : jsonQuote "duration" = "\"duration\"" := rfl
  have hqbo : jsonQuote "body" = "\"body\"" := rfl
  have hqer : jsonQuote "error" = "\"error\"" := rfl
  have hqok : jsonQuote "200 OK" = "\"200 OK\"" := rfl
  have hqx : jsonQuote "X" = "\"X\"" := rfl
  have h200 : toString (200 : Nat) = "200" := rfl
  constructor
  · show marshalRespOutput
        { Id := idS, StatusCode := 200, Status := "200 OK",
          Duration := durationStr d, Body := "X", Error := "" } = _
    unfold marshalRespOutput specJsonObject
    rw [if_neg (by decide : ¬(200 = 0)), if_neg (by decide : ¬("200 OK" = "")),
      if_neg (durationStr_ne_empty d), if_neg (by decide : ¬("X" = "")), if_pos rfl]
    apply String.ext
    simp [renderJField, joinWith, hqid, hqsc, hqst, hqdu, hqbo, hqok, hqx, h200,
      String.data_append]
  · have h1 : (Response.mk none idS (some e) 0).MarshalJSON.1
        = marshalRespOutput { Id := idS, Error := e } := by
      simp only [Response.MarshalJSON]
      rw [if_pos (show (Response.mk none idS (some e) 0).output.Error ≠ "" from he)]
      rfl
    rw [h1]
    unfold marshalRespOutput specJsonObject
    rw [if_pos rfl, if_pos rfl, if_pos rfl, if_pos rfl, if_neg he]
    apply String.ext
    simp [renderJField, joinWith, hqid, hqer, String.data_append]

theorem json_fields_by_shape_witness :
    ("boom" ≠ "") ∧
    ((Response.mk (some (HttpResponse.mk 200 "200 OK" "X")) "a" none 1500000).MarshalJSON.1
        = specJsonObject [("id", JVal.str "a"), ("status_code", JVal.num 200),
            ("status", JVal.str "200 OK"), ("duration", JVal.str (durationStr 1500000)),
            ("body", JVal.str "X")] ∧
      (Response.mk none "a" (some "boom") 0).MarshalJSON.1
        = specJsonObject [("id", JVal.str "a"), ("error", JVal.str "boom")]) :=
  ⟨by decide, json_fields_by_shape "a" "boom" 1500000 (by decide)⟩
